import Mathlib

/-
Shallow embedding of the SkidRC store backend (backend server, the version
with the in-memory fallback).

The server keeps a process-wide flag `isDbAvailable`, set once at startup,
plus two in-memory collections (`inMemoryProducts`, `inMemoryOrders`) and the
external Firestore collections (`products`, `orders`).  Each HTTP handler is
embedded as a pure function from the server state, the parsed JSON request
body, the request time, the synthesized random identifier, and an oracle
describing the outcome of the (external) document-store call, to a response,
a new state, and a flag recording whether the document-store client was
invoked on that request.

JSON bodies are modelled as association lists of string keys to atomic
values; the handlers only ever read, overwrite or add top-level fields, so
atomic values suffice.  JS semantics embedded explicitly: property access on
a missing key yields `undefined`, property assignment overwrites in place or
appends, and object spread `\x7b id, ...obj \x7d` assigns the fields of `obj`
one by one on top of the initial fields (so a later duplicate key wins).
-/

namespace SkidRC

/-- Atomic JavaScript values as they appear in request bodies and stored
records.  Numbers are modelled as integers: the server never computes with
them, it only tests `typeof x === "number"` and stores them. -/
inductive JVal where
  | undefined : JVal
  | null : JVal
  | bool (b : Bool) : JVal
  | num (n : Int) : JVal
  | str (s : String) : JVal
  | date (t : Nat) : JVal
deriving DecidableEq, Repr

/-- A JavaScript object: ordered association list of fields. -/
abbrev Obj := List (String × JVal)

/-- JavaScript truthiness of an atomic value (`!v` in the source negates
this).  `undefined`, `null`, `false`, `0` and `""` are falsy. -/
def truthy : JVal → Bool
  | .undefined => false
  | .null => false
  | .bool b => b
  | .num n => n != 0
  | .str s => s != ""
  | .date _ => true

/-- `typeof v === "number"` for an atomic value. -/
def isNumber : JVal → Bool
  | .num _ => true
  | _ => false

/-- JS property read `o.k`: first entry with the key, else `undefined`. -/
def getField : Obj → String → JVal
  | [], _ => .undefined
  | (k1, v1) :: o, k => if k = k1 then v1 else getField o k

/-- Whether the object has an entry with the given key. -/
def hasKey : Obj → String → Bool
  | [], _ => false
  | (k1, _) :: o, k => k = k1 || hasKey o k

/-- Overwrite every entry carrying the key (a well-formed JS object has at
most one). -/
def updateField : Obj → String → JVal → Obj
  | [], _, _ => []
  | (k1, v1) :: o, k, v =>
    if k1 = k then (k, v) :: updateField o k v else (k1, v1) :: updateField o k v

/-- JS property assignment `o.k = v`: overwrite in place if the key exists,
otherwise append the new field at the end. -/
def setField (o : Obj) (k : String) (v : JVal) : Obj :=
  if hasKey o k then updateField o k v else o ++ [(k, v)]

/-- JS object spread placed after some initial fields:
`\x7b ...pre-fields, ...o \x7d` assigns the fields of `o` in order on top of
`pre`. -/
def spreadAfter (pre : Obj) (o : Obj) : Obj :=
  o.foldl (fun acc p => setField acc p.1 p.2) pre

/-- Body of a JSON response: a single object or an array of objects. -/
inductive RespBody where
  | obj (o : Obj) : RespBody
  | items (xs : List Obj) : RespBody
deriving DecidableEq, Repr

/-- An HTTP response as produced by the handlers. -/
structure Response where
  status : Nat
  body : RespBody
deriving DecidableEq, Repr

/-- The server state: the startup storage-mode flag, the external Firestore
collections (documents keyed by their store-generated identifier), and the
two in-memory fallback collections. -/
structure ServerState where
  isDbAvailable : Bool
  dbProducts : List (String × Obj)
  dbOrders : List (String × Obj)
  inMemoryProducts : List Obj
  inMemoryOrders : List Obj
deriving DecidableEq, Repr

/-- Result of running one handler: the HTTP response, the state after the
request, and whether the document-store client was invoked. -/
structure HandlerResult where
  resp : Response
  state : ServerState
  dbCalled : Bool
deriving DecidableEq, Repr

/-- Outcome of one call to the external document store: success with a
returned value, or a thrown error. -/
inductive DbOutcome (α : Type) where
  | ok (a : α) : DbOutcome α
  | err : DbOutcome α
deriving DecidableEq, Repr

/-- `requireAdmin` middleware: `some resp` means the request is rejected
with that response, `none` means control passes to the wrapped handler.
`providedHeader` is the `x-admin-secret` header (absent = `none`) and
`adminSecretEnv` is the `ADMIN_SECRET` environment variable. -/
def requireAdmin (providedHeader : Option String) (adminSecretEnv : Option String) :
    Option Response :=
  let provided := providedHeader.getD ""
  let expected := adminSecretEnv.getD ""
  if expected = "" then
    some ⟨503, .obj [("message", .str "Admin not configured")]⟩
  else if provided ≠ expected then
    some ⟨401, .obj [("message", .str "Unauthorized")]⟩
  else
    none

/-- `POST /api/create-order`.  Stamps `createdAt` and `status`, then either
writes to the `orders` store collection (responding 500 on a thrown store
error, with no fallback) or pushes to the in-memory orders. -/
def createOrder (st : ServerState) (body : Obj) (now : Nat) (freshId : String)
    (dbAdd : DbOutcome String) : HandlerResult :=
  let orderData := setField (setField body "createdAt" (.date now)) "status"
    (.str "Processing")
  if st.isDbAvailable then
    match dbAdd with
    | .ok refId =>
      { resp := ⟨200, .obj [("message", .str "Order received and saved successfully!"),
          ("orderId", .str refId)]⟩
        state := { st with dbOrders := st.dbOrders ++ [(refId, orderData)] }
        dbCalled := true }
    | .err =>
      { resp := ⟨500, .obj [("message", .str "Failed to save order.")]⟩
        state := st
        dbCalled := true }
  else
    let entry := spreadAfter [("id", .str freshId)] orderData
    { resp := ⟨200, .obj [("message", .str "Order received (in-memory)."),
        ("orderId", .str freshId)]⟩
      state := { st with inMemoryOrders := st.inMemoryOrders ++ [entry] }
      dbCalled := false }

/-- The `createdAt` sort key of a stored document (documents written by this
server always carry a date there). -/
def createdAtKey (o : Obj) : Nat :=
  match getField o "createdAt" with
  | .date t => t
  | _ => 0

/-- Descending comparison on the `createdAt` sort key of store documents. -/
def descLe (a b : String × Obj) : Bool :=
  createdAtKey b.2 ≤ createdAtKey a.2

/-- The Firestore query `products.orderBy createdAt desc`: the store's
documents sorted by `createdAt` descending. -/
def queryProductsDesc (docs : List (String × Obj)) : List (String × Obj) :=
  docs.mergeSort descLe

/-- `GET /api/products`.  In available mode, queries the store ordered by
`createdAt` descending and maps each doc to `\x7b id, ...data \x7d`; on a
thrown query error falls back to the in-memory collection; in unavailable
mode returns the in-memory collection directly.  Always 200. -/
def getProducts (st : ServerState) (dbQuery : DbOutcome Unit) : HandlerResult :=
  if st.isDbAvailable then
    match dbQuery with
    | .ok _ =>
      let items := (queryProductsDesc st.dbProducts).map
        (fun d => spreadAfter [("id", .str d.1)] d.2)
      { resp := ⟨200, .items items⟩, state := st, dbCalled := true }
    | .err =>
      { resp := ⟨200, .items st.inMemoryProducts⟩, state := st, dbCalled := true }
  else
    { resp := ⟨200, .items st.inMemoryProducts⟩, state := st, dbCalled := false }

/-- `POST /api/admin/products` (after the admin guard).  Validates a truthy
`name` and numeric `price` (400 otherwise), stamps `createdAt`, then inserts
into the store (falling back to prepending in memory on a thrown store
error) or prepends in memory directly. -/
def addProduct (st : ServerState) (body : Obj) (now : Nat) (freshId : String)
    (dbAdd : DbOutcome String) : HandlerResult :=
  if !truthy (getField body "name") || !isNumber (getField body "price") then
    { resp := ⟨400, .obj [("message", .str "name and numeric price are required")]⟩
      state := st
      dbCalled := false }
  else
    let product := setField body "createdAt" (.date now)
    if st.isDbAvailable then
      match dbAdd with
      | .ok refId =>
        let record := spreadAfter [("id", .str refId)] product
        { resp := ⟨201, .obj record⟩
          state := { st with dbProducts := st.dbProducts ++ [(refId, product)] }
          dbCalled := true }
      | .err =>
        let toStore := spreadAfter [("id", .str freshId)] product
        { resp := ⟨201, .obj toStore⟩
          state := { st with inMemoryProducts := toStore :: st.inMemoryProducts }
          dbCalled := true }
    else
      let toStore := spreadAfter [("id", .str freshId)] product
      { resp := ⟨201, .obj toStore⟩
        state := { st with inMemoryProducts := toStore :: st.inMemoryProducts }
        dbCalled := false }

/-- `DELETE /api/admin/products` (after the admin guard): batched delete of
every store document, 500 on a thrown error; in unavailable mode clears the
in-memory collection in place. -/
def deleteAllProducts (st : ServerState) (dbBatch : DbOutcome Unit) : HandlerResult :=
  if st.isDbAvailable then
    match dbBatch with
    | .ok _ =>
      { resp := ⟨200, .obj [("message", .str "All products deleted")]⟩
        state := { st with dbProducts := [] }
        dbCalled := true }
    | .err =>
      { resp := ⟨500, .obj [("message", .str "Failed to delete products.")]⟩
        state := st
        dbCalled := true }
  else
    { resp := ⟨200, .obj [("message", .str "All products deleted (in-memory)")]⟩
      state := { st with inMemoryProducts := [] }
      dbCalled := false }

/-- The `p.id === id` test of delete-one: strict equality between the
entry's `id` field and the path parameter. -/
def isIdMatch (id : String) (p : Obj) : Bool :=
  getField p "id" == JVal.str id

/-- The in-memory branch of delete-one: `findIndex` on `p.id === id`
followed by `splice(idx, 1)` when found. -/
def removeFirstById (l : List Obj) (id : String) : List Obj :=
  match l.findIdx? (isIdMatch id) with
  | some idx => l.eraseIdx idx
  | none => l

/-- `DELETE /api/admin/products/:id` (after the admin guard): deletes the
store document with that identifier (500 on a thrown error); in unavailable
mode removes the first in-memory entry whose `id` field strictly equals the
path parameter, a no-op when none matches.  200 in both non-error paths. -/
def deleteOneProduct (st : ServerState) (id : String) (dbDelete : DbOutcome Unit) :
    HandlerResult :=
  if st.isDbAvailable then
    match dbDelete with
    | .ok _ =>
      { resp := ⟨200, .obj [("message", .str "Product deleted")]⟩
        state := { st with dbProducts := st.dbProducts.filter (fun d => d.1 ≠ id) }
        dbCalled := true }
    | .err =>
      { resp := ⟨500, .obj [("message", .str "Failed to delete product.")]⟩
        state := st
        dbCalled := true }
  else
    { resp := ⟨200, .obj [("message", .str "Product deleted (in-memory)")]⟩
      state := { st with inMemoryProducts := removeFirstById st.inMemoryProducts id }
      dbCalled := false }

/-! Lemmas about the embedded JS object operations. -/

theorem getField_updateField_self (o : Obj) (k : String) (v : JVal)
    (h : hasKey o k = true) : getField (updateField o k v) k = v := by
  induction o with
  | nil => simp [hasKey] at h
  | cons p t ih =>
    obtain ⟨k1, v1⟩ := p
    simp only [hasKey, Bool.or_eq_true, decide_eq_true_eq] at h
    by_cases hk : k1 = k
    · subst hk
      simp [updateField, getField]
    · have hk2 : ¬k = k1 := fun hkk => hk hkk.symm
      simp only [updateField, if_neg hk, getField, if_neg hk2]
      exact ih (h.resolve_left hk2)

theorem getField_updateField_ne (o : Obj) (k k' : String) (v : JVal)
    (h : k' ≠ k) : getField (updateField o k v) k' = getField o k' := by
  induction o with
  | nil => simp [updateField]
  | cons p t ih =>
    obtain ⟨k1, v1⟩ := p
    by_cases hk : k1 = k
    · subst hk
      simp only [updateField, if_pos rfl, getField, if_neg h]
      exact ih
    · simp only [updateField, if_neg hk, getField]
      by_cases hk' : k' = k1
      · simp [hk']
      · simp only [if_neg hk']
        exact ih

theorem getField_append_single_self (o : Obj) (k : String) (v : JVal)
    (h : hasKey o k = false) : getField (o ++ [(k, v)]) k = v := by
  induction o with
  | nil => simp [getField]
  | cons p t ih =>
    obtain ⟨k1, v1⟩ := p
    simp only [hasKey, Bool.or_eq_false_iff, decide_eq_false_iff_not] at h
    simp only [List.cons_append, getField, if_neg h.1]
    exact ih h.2

theorem getField_setField_self (o : Obj) (k : String) (v : JVal) :
    getField (setField o k v) k = v := by
  unfold setField
  by_cases h : hasKey o k
  · rw [if_pos h]; exact getField_updateField_self o k v h
  · rw [if_neg h]
    exact getField_append_single_self o k v (Bool.not_eq_true _ ▸ eq_false_of_ne_true h)

theorem getField_append_single_ne (o : Obj) (k k' : String) (v : JVal)
    (h : k' ≠ k) : getField (o ++ [(k, v)]) k' = getField o k' := by
  induction o with
  | nil => simp [getField, if_neg h]
  | cons p t ih =>
    obtain ⟨k1, v1⟩ := p
    simp only [List.cons_append, getField]
    by_cases hk' : k' = k1
    · simp [hk']
    · simp only [if_neg hk']
      exact ih

theorem getField_setField_ne (o : Obj) (k k' : String) (v : JVal)
    (h : k' ≠ k) : getField (setField o k v) k' = getField o k' := by
  unfold setField
  by_cases hh : hasKey o k
  · rw [if_pos hh]; exact getField_updateField_ne o k k' v h
  · rw [if_neg hh]; exact getField_append_single_ne o k k' v h

theorem hasKey_updateField (o : Obj) (k k' : String) (v : JVal) :
    hasKey (updateField o k v) k' = hasKey o k' := by
  induction o with
  | nil => rfl
  | cons p t ih =>
    obtain ⟨k1, v1⟩ := p
    by_cases hk : k1 = k
    · subst hk
      simp [updateField, hasKey, ih]
    · simp [updateField, if_neg hk, hasKey, ih]

theorem hasKey_append (o1 o2 : Obj) (k : String) :
    hasKey (o1 ++ o2) k = (hasKey o1 k || hasKey o2 k) := by
  induction o1 with
  | nil => simp [hasKey]
  | cons p t ih =>
    obtain ⟨k1, v1⟩ := p
    simp [hasKey, ih, Bool.or_assoc]

theorem hasKey_setField (o : Obj) (k k' : String) (v : JVal) :
    hasKey (setField o k v) k' = (decide (k' = k) || hasKey o k') := by
  unfold setField
  by_cases hh : hasKey o k
  · rw [if_pos hh, hasKey_updateField]
    by_cases hk : k' = k
    · subst hk; simp [hh]
    · simp [hk]
  · rw [if_neg hh, hasKey_append]
    simp [hasKey, Bool.or_comm]

theorem hasKey_eq_true_iff (o : Obj) (k : String) :
    hasKey o k = true ↔ k ∈ o.map Prod.fst := by
  induction o with
  | nil => simp [hasKey]
  | cons p t ih =>
    obtain ⟨k1, v1⟩ := p
    simp [hasKey, ih]

theorem hasKey_eq_false_iff (o : Obj) (k : String) :
    hasKey o k = false ↔ ∀ p ∈ o, p.1 ≠ k := by
  induction o with
  | nil => simp [hasKey]
  | cons p t ih =>
    obtain ⟨k1, v1⟩ := p
    constructor
    · intro h
      simp only [hasKey, Bool.or_eq_false_iff, decide_eq_false_iff_not] at h
      intro q hq
      rcases List.mem_cons.mp hq with hq | hq
      · subst hq; exact fun hkk => h.1 hkk.symm
      · exact ih.mp h.2 q hq
    · intro h
      simp only [hasKey, Bool.or_eq_false_iff, decide_eq_false_iff_not]
      refine ⟨fun hkk => h (k1, v1) (List.mem_cons_self _ _) hkk.symm, ?_⟩
      exact ih.mpr fun q hq => h q (List.mem_cons_of_mem _ hq)

theorem spreadAfter_nil (pre : Obj) : spreadAfter pre [] = pre := rfl

theorem spreadAfter_cons (pre : Obj) (p : String × JVal) (o : Obj) :
    spreadAfter pre (p :: o) = spreadAfter (setField pre p.1 p.2) o := rfl

theorem getField_spreadAfter_of_hasKey_false (o : Obj) (k : String)
    (h : hasKey o k = false) :
    ∀ pre : Obj, getField (spreadAfter pre o) k = getField pre k := by
  induction o with
  | nil => intro pre; rfl
  | cons p t ih =>
    intro pre
    obtain ⟨k1, v1⟩ := p
    simp only [hasKey, Bool.or_eq_false_iff, decide_eq_false_iff_not] at h
    rw [spreadAfter_cons]
    rw [ih h.2]
    exact getField_setField_ne pre k1 k v1 h.1

theorem getField_spreadAfter_allVal (o : Obj) (k : String) (v : JVal)
    (h1 : hasKey o k = true) (h2 : ∀ p ∈ o, p.1 = k → p.2 = v) :
    ∀ pre : Obj, getField (spreadAfter pre o) k = v := by
  induction o with
  | nil => simp [hasKey] at h1
  | cons p t ih =>
    intro pre
    obtain ⟨k1, v1⟩ := p
    rw [spreadAfter_cons]
    by_cases ht : hasKey t k = true
    · exact ih ht (fun q hq => h2 q (List.mem_cons_of_mem _ hq)) _
    · have ht' : hasKey t k = false := by
        cases hx : hasKey t k
        · rfl
        · exact absurd hx ht
      simp only [hasKey, Bool.or_eq_true, decide_eq_true_eq] at h1
      have hk1 : k = k1 := h1.resolve_right ht
      have hv1 : v1 = v := h2 (k1, v1) (List.mem_cons_self _ _) hk1.symm
      rw [getField_spreadAfter_of_hasKey_false t k ht']
      subst hk1 hv1
      exact getField_setField_self pre k v1

theorem setField_of_hasKey_false (o : Obj) (k : String) (v : JVal)
    (h : hasKey o k = false) : setField o k v = o ++ [(k, v)] := by
  unfold setField
  rw [if_neg (by simp [h])]

theorem spreadAfter_eq_append (o : Obj) :
    ∀ pre : Obj, (o.map Prod.fst).Nodup → (∀ p ∈ o, hasKey pre p.1 = false) →
    spreadAfter pre o = pre ++ o := by
  induction o with
  | nil => intro pre _ _; simp [spreadAfter_nil]
  | cons p t ih =>
    intro pre hnd hdisj
    obtain ⟨k1, v1⟩ := p
    simp only [List.map_cons, List.nodup_cons] at hnd
    rw [spreadAfter_cons]
    have hset : setField pre k1 v1 = pre ++ [(k1, v1)] :=
      setField_of_hasKey_false pre k1 v1 (hdisj (k1, v1) (List.mem_cons_self _ _))
    rw [hset, ih (pre ++ [(k1, v1)]) hnd.2]
    · simp
    · intro q hq
      rw [hasKey_append]
      have h1 : hasKey pre q.1 = false := hdisj q (List.mem_cons_of_mem _ hq)
      have h2 : q.1 ≠ k1 := by
        intro hqk
        exact hnd.1 (hqk ▸ List.mem_map_of_mem Prod.fst hq)
      simp [h1, hasKey, h2]

theorem map_fst_setField_of_hasKey_false (o : Obj) (k : String) (v : JVal)
    (h : hasKey o k = false) :
    (setField o k v).map Prod.fst = o.map Prod.fst ++ [k] := by
  rw [setField_of_hasKey_false o k v h]
  simp

theorem map_fst_updateField (o : Obj) (k : String) (v : JVal) :
    (updateField o k v).map Prod.fst = o.map Prod.fst := by
  induction o with
  | nil => rfl
  | cons p t ih =>
    obtain ⟨k1, v1⟩ := p
    by_cases hk : k1 = k
    · subst hk
      simp [updateField, ih]
    · simp [updateField, if_neg hk, ih]

theorem map_fst_setField_nodup (o : Obj) (k : String) (v : JVal)
    (h : (o.map Prod.fst).Nodup) : ((setField o k v).map Prod.fst).Nodup := by
  unfold setField
  split
  · rw [map_fst_updateField]; exact h
  · rename_i hk
    have hk' : hasKey o k = false := by
      cases hx : hasKey o k
      · rfl
      · exact absurd hx hk
    rw [List.map_append]
    refine List.Nodup.append h (List.nodup_singleton _) ?_
    intro a ha hb
    simp only [List.map_cons, List.map_nil, List.mem_singleton] at hb
    subst hb
    exact absurd ((hasKey_eq_true_iff o a).mpr ha) (by simp [hk'])

theorem hasKey_setField_ne (o : Obj) (k k' : String) (v : JVal) (h : k' ≠ k) :
    hasKey (setField o k v) k' = hasKey o k' := by
  rw [hasKey_setField]
  simp [h]

theorem allVal_updateField (o : Obj) (k : String) (v : JVal) :
    ∀ p ∈ updateField o k v, p.1 = k → p.2 = v := by
  induction o with
  | nil => intro p hp; simp [updateField] at hp
  | cons q t ih =>
    obtain ⟨k1, v1⟩ := q
    intro p hp hk
    by_cases hk1 : k1 = k
    · simp only [updateField, if_pos hk1] at hp
      rcases List.mem_cons.mp hp with hp | hp
      · subst hp; rfl
      · exact ih p hp hk
    · simp only [updateField, if_neg hk1] at hp
      rcases List.mem_cons.mp hp with hp | hp
      · subst hp; exact absurd hk hk1
      · exact ih p hp hk

theorem allVal_setField (o : Obj) (k : String) (v : JVal) :
    ∀ p ∈ setField o k v, p.1 = k → p.2 = v := by
  unfold setField
  split
  · exact allVal_updateField o k v
  · rename_i hk
    have hk' : hasKey o k = false := by
      cases hx : hasKey o k
      · rfl
      · exact absurd hx hk
    intro p hp hpk
    rcases List.mem_append.mp hp with hp | hp
    · exact absurd hpk ((hasKey_eq_false_iff o k).mp hk' p hp)
    · rw [List.mem_singleton] at hp
      subst hp; rfl

theorem allVal_updateField_ne (o : Obj) (k k' : String) (v v' : JVal)
    (hne : k' ≠ k) (h : ∀ p ∈ o, p.1 = k' → p.2 = v') :
    ∀ p ∈ updateField o k v, p.1 = k' → p.2 = v' := by
  induction o with
  | nil => intro p hp; simp [updateField] at hp
  | cons q t ih =>
    obtain ⟨k1, v1⟩ := q
    intro p hp hpk
    by_cases hk1 : k1 = k
    · simp only [updateField, if_pos hk1] at hp
      rcases List.mem_cons.mp hp with hp | hp
      · subst hp; exact absurd (show k = k' from hpk).symm hne
      · exact ih (fun q hq => h q (List.mem_cons_of_mem _ hq)) p hp hpk
    · simp only [updateField, if_neg hk1] at hp
      rcases List.mem_cons.mp hp with hp | hp
      · subst hp; exact h (k1, v1) (List.mem_cons_self _ _) hpk
      · exact ih (fun q hq => h q (List.mem_cons_of_mem _ hq)) p hp hpk

theorem allVal_setField_ne (o : Obj) (k k' : String) (v v' : JVal)
    (hne : k' ≠ k) (h : ∀ p ∈ o, p.1 = k' → p.2 = v') :
    ∀ p ∈ setField o k v, p.1 = k' → p.2 = v' := by
  unfold setField
  split
  · exact allVal_updateField_ne o k k' v v' hne h
  · intro p hp hpk
    rcases List.mem_append.mp hp with hp | hp
    · exact h p hp hpk
    · rw [List.mem_singleton] at hp
      subst hp
      exact absurd (show k = k' from hpk).symm hne

theorem spreadAfter_single (k : String) (v : JVal) (o : Obj)
    (hnd : (o.map Prod.fst).Nodup) (hk : hasKey o k = false) :
    spreadAfter [(k, v)] o = (k, v) :: o := by
  rw [spreadAfter_eq_append o [(k, v)] hnd]
  · rfl
  · intro p hp
    have hne : p.1 ≠ k := (hasKey_eq_false_iff o k).mp hk p hp
    simp [hasKey, fun h => hne h]

theorem removeFirstById_eq_eraseP (l : List Obj) (id : String) :
    removeFirstById l id = l.eraseP (isIdMatch id) := by
  induction l with
  | nil => rfl
  | cons p t ih =>
    by_cases hp : isIdMatch id p
    · simp [removeFirstById, List.findIdx?_cons, hp, List.eraseP_cons_of_pos]
    · simp only [removeFirstById, List.findIdx?_cons, if_neg hp, List.findIdx?_succ,
        List.eraseP_cons_of_neg hp]
      simp only [removeFirstById] at ih
      cases hidx : t.findIdx? (isIdMatch id) with
      | none => simp [hidx] at ih ⊢; exact ih
      | some i => simp [hidx] at ih ⊢; exact ih

theorem descLe_trans : ∀ a b c : String × Obj, descLe a b → descLe b c → descLe a c := by
  intro a b c hab hbc
  simp only [descLe, decide_eq_true_eq] at *
  exact Nat.le_trans hbc hab

theorem descLe_total : ∀ a b : String × Obj, descLe a b || descLe b a := by
  intro a b
  simp only [descLe, Bool.or_eq_true, decide_eq_true_eq]
  exact Nat.le_total _ _

theorem queryProductsDesc_sorted (docs : List (String × Obj)) :
    (queryProductsDesc docs).Pairwise
      (fun a b => createdAtKey b.2 ≤ createdAtKey a.2) := by
  have h := List.sorted_mergeSort descLe_trans descLe_total docs
  exact h.imp (fun hab => by simpa [descLe] using hab)

theorem queryProductsDesc_perm (docs : List (String × Obj)) :
    List.Perm (queryProductsDesc docs) docs :=
  List.mergeSort_perm docs descLe

/-! Concrete server states used by the closed instances below. -/

/-- The state after a startup in which Firestore initialization failed:
storage mode unavailable, all collections empty. -/
def stMem : ServerState := ⟨false, [], [], [], []⟩

/-- The state after a successful startup: storage mode available, all
collections empty. -/
def stDb : ServerState := ⟨true, [], [], [], []⟩

/-! The claims. -/

/-- C5: for every admin request, if no secret is configured (the `ADMIN_SECRET`
environment value defaults to the empty string) the guard responds 503
regardless of the supplied header; if a secret is configured and the supplied
header does not exactly equal it the guard responds 401 and the wrapped
handler is not invoked; if it exactly matches, the wrapped handler runs
(the guard returns `none`). -/
theorem requireAdmin_guard_spec (providedHeader adminSecretEnv : Option String) :
    (adminSecretEnv.getD "" = "" →
      requireAdmin providedHeader adminSecretEnv =
        some ⟨503, .obj [("message", .str "Admin not configured")]⟩) ∧
    (adminSecretEnv.getD "" ≠ "" →
      (providedHeader.getD "" ≠ adminSecretEnv.getD "" →
        requireAdmin providedHeader adminSecretEnv =
          some ⟨401, .obj [("message", .str "Unauthorized")]⟩) ∧
      (providedHeader.getD "" = adminSecretEnv.getD "" →
        requireAdmin providedHeader adminSecretEnv = none)) := by
  refine ⟨fun h => ?_, fun h => ⟨fun hne => ?_, fun heq => ?_⟩⟩ <;>
    simp [requireAdmin, h, *]

/-- C5 witness: with secret "s", a wrong header gets 401, the right header
passes through, and with no configured secret any header gets 503. -/
theorem requireAdmin_guard_spec_witness :
    requireAdmin (some "bad") (some "s") =
      some ⟨401, .obj [("message", .str "Unauthorized")]⟩ ∧
    requireAdmin (some "s") (some "s") = none ∧
    requireAdmin (some "whatever") none =
      some ⟨503, .obj [("message", .str "Admin not configured")]⟩ :=
  ⟨((requireAdmin_guard_spec (some "bad") (some "s")).2 (by decide)).1 (by decide),
   ((requireAdmin_guard_spec (some "s") (some "s")).2 (by decide)).2 rfl,
   (requireAdmin_guard_spec (some "whatever") none).1 rfl⟩

/-- C2: for every order-intake request handled while the store is available,
a thrown store write error produces a 500 response with the failure message
and leaves the whole state — in particular the in-memory orders collection —
unchanged: no fallback write occurs on this path. -/
theorem createOrder_store_error_hard_failure (st : ServerState) (body : Obj)
    (now : Nat) (freshId : String) (h : st.isDbAvailable = true) :
    (createOrder st body now freshId .err).resp =
      ⟨500, .obj [("message", .str "Failed to save order.")]⟩ ∧
    (createOrder st body now freshId .err).state = st ∧
    (createOrder st body now freshId .err).state.inMemoryOrders =
      st.inMemoryOrders := by
  refine ⟨?_, ?_, ?_⟩ <;> simp [createOrder, h]

/-- C2 witness: the concrete 500 hard failure at the empty available state. -/
theorem createOrder_store_error_hard_failure_witness :
    (createOrder stDb [] 0 "g" .err).resp =
      ⟨500, .obj [("message", .str "Failed to save order.")]⟩ ∧
    (createOrder stDb [] 0 "g" .err).state = stDb ∧
    (createOrder stDb [] 0 "g" .err).state.inMemoryOrders =
      stDb.inMemoryOrders :=
  createOrder_store_error_hard_failure stDb [] 0 "g" rfl

/-- C4: for every authorized product submission whose body lacks a truthy
name or whose price is not numeric, the add endpoint responds 400 with the
validation message, the document store is never invoked, and the state —
including both catalogs — is unchanged. -/
theorem addProduct_invalid_400_no_write (st : ServerState) (body : Obj)
    (now : Nat) (freshId : String) (dbAdd : DbOutcome String)
    (h : truthy (getField body "name") = false ∨
      isNumber (getField body "price") = false) :
    (addProduct st body now freshId dbAdd).resp =
      ⟨400, .obj [("message", .str "name and numeric price are required")]⟩ ∧
    (addProduct st body now freshId dbAdd).state = st ∧
    (addProduct st body now freshId dbAdd).dbCalled = false := by
  have hcond :
      (!truthy (getField body "name") || !isNumber (getField body "price")) = true := by
    rcases h with h | h <;> simp [h]
  refine ⟨?_, ?_, ?_⟩ <;> simp [addProduct, hcond]

/-- C4 witness: a body with a name but a string price is rejected with 400
and the state stays intact. -/
theorem addProduct_invalid_400_no_write_witness :
    (addProduct stMem [("name", .str "Wheel Set"), ("price", .str "free")]
        0 "g" .err).resp =
      ⟨400, .obj [("message", .str "name and numeric price are required")]⟩ ∧
    (addProduct stMem [("name", .str "Wheel Set"), ("price", .str "free")]
        0 "g" .err).state = stMem ∧
    (addProduct stMem [("name", .str "Wheel Set"), ("price", .str "free")]
        0 "g" .err).dbCalled = false :=
  addProduct_invalid_400_no_write stMem
    [("name", .str "Wheel Set"), ("price", .str "free")] 0 "g" .err
    (Or.inr (by decide))

/-- C9: in in-memory mode, an authorized delete-all clears the in-memory
products collection in place and responds 200, and a subsequent list request
(whatever its store oracle, since the flag is still false) returns the
now-empty collection. -/
theorem deleteAll_then_list_empty (st : ServerState) (o1 o2 : DbOutcome Unit)
    (h : st.isDbAvailable = false) :
    (deleteAllProducts st o1).resp.status = 200 ∧
    (deleteAllProducts st o1).state.inMemoryProducts = [] ∧
    (getProducts (deleteAllProducts st o1).state o2).resp =
      ⟨200, .items []⟩ := by
  refine ⟨?_, ?_, ?_⟩ <;> simp [deleteAllProducts, getProducts, h]

/-- C9 witness: delete-all then list on a two-product in-memory state. -/
theorem deleteAll_then_list_empty_witness :
    (deleteAllProducts ⟨false, [], [], [[("id", .str "a")], [("id", .str "b")]], []⟩
        .err).resp.status = 200 ∧
    (deleteAllProducts ⟨false, [], [], [[("id", .str "a")], [("id", .str "b")]], []⟩
        .err).state.inMemoryProducts = [] ∧
    (getProducts (deleteAllProducts
        ⟨false, [], [], [[("id", .str "a")], [("id", .str "b")]], []⟩ .err).state
        .err).resp = ⟨200, .items []⟩ :=
  deleteAll_then_list_empty
    ⟨false, [], [], [[("id", .str "a")], [("id", .str "b")]], []⟩ .err .err rfl

/-- C6: for every request to the product list endpoint the response status is
200 and the state is untouched; when the store is available and the query
succeeds the body is the store's products ordered by `createdAt` descending
(each mapped to its identifier spread before its data); when the query throws,
or the store is unavailable, the body is the in-memory products collection.
In no execution does listing surface an error status. -/
theorem getProducts_always_200 (st : ServerState) (q : DbOutcome Unit) :
    (getProducts st q).resp.status = 200 ∧
    (getProducts st q).state = st ∧
    (st.isDbAvailable = true →
      (getProducts st (.ok ())).resp.body =
        .items ((queryProductsDesc st.dbProducts).map
          (fun d => spreadAfter [("id", .str d.1)] d.2)) ∧
      (queryProductsDesc st.dbProducts).Pairwise
        (fun a b => createdAtKey b.2 ≤ createdAtKey a.2) ∧
      List.Perm (queryProductsDesc st.dbProducts) st.dbProducts ∧
      (getProducts st .err).resp.body = .items st.inMemoryProducts) ∧
    (st.isDbAvailable = false →
      (getProducts st q).resp.body = .items st.inMemoryProducts) := by
  refine ⟨?_, ?_, fun h => ⟨?_, queryProductsDesc_sorted _, queryProductsDesc_perm _, ?_⟩,
    fun h => ?_⟩
  · cases q <;> by_cases hb : st.isDbAvailable <;> simp [getProducts, hb]
  · cases q <;> by_cases hb : st.isDbAvailable <;> simp [getProducts, hb]
  · simp [getProducts, h]
  · simp [getProducts, h]
  · simp [getProducts, h]

/-- C6 witness: listing at a concrete available state with two store
documents, and at the same state with a throwing query. -/
theorem getProducts_always_200_witness :
    (getProducts ⟨true, [("a", [("createdAt", .date 1)]), ("b", [("createdAt", .date 2)])],
        [], [[("id", .str "m")]], []⟩ (.ok ())).resp.status = 200 ∧
    (getProducts ⟨true, [("a", [("createdAt", .date 1)]), ("b", [("createdAt", .date 2)])],
        [], [[("id", .str "m")]], []⟩ (.ok ())).resp.body =
      .items ((queryProductsDesc
          [("a", [("createdAt", .date 1)]), ("b", [("createdAt", .date 2)])]).map
        (fun d => spreadAfter [("id", .str d.1)] d.2)) ∧
    (getProducts ⟨true, [("a", [("createdAt", .date 1)]), ("b", [("createdAt", .date 2)])],
        [], [[("id", .str "m")]], []⟩ .err).resp.body =
      .items [[("id", .str "m")]] := by
  have h := getProducts_always_200
    ⟨true, [("a", [("createdAt", .date 1)]), ("b", [("createdAt", .date 2)])],
      [], [[("id", .str "m")]], []⟩ (.ok ())
  exact ⟨h.1, (h.2.2.1 rfl).1, (h.2.2.1 rfl).2.2.2⟩

/-- The in-memory order entry exactly as the intake handler builds it: the
synthesized identifier spread before the body stamped with `createdAt` and
`status`. -/
def stampedOrder (body : Obj) (now : Nat) (freshId : String) : Obj :=
  spreadAfter [("id", .str freshId)]
    (setField (setField body "createdAt" (.date now)) "status" (.str "Processing"))

/-- C7: for every order-intake request handled while storage mode is
unavailable, exactly one new entry is appended to the in-memory orders
collection; its `status` field is "Processing" and its `createdAt` field is
the request time itself (so not earlier than the request time, and any
client-supplied `status` or `createdAt` is overwritten); the response is 200
and carries the synthesized identifier. -/
theorem createOrder_inMemory_appends (st : ServerState) (body : Obj)
    (now : Nat) (freshId : String) (dbAdd : DbOutcome String)
    (h : st.isDbAvailable = false) :
    (createOrder st body now freshId dbAdd).resp =
      ⟨200, .obj [("message", .str "Order received (in-memory)."),
        ("orderId", .str freshId)]⟩ ∧
    (createOrder st body now freshId dbAdd).state.inMemoryOrders =
      st.inMemoryOrders ++ [stampedOrder body now freshId] ∧
    getField (stampedOrder body now freshId) "status" = .str "Processing" ∧
    getField (stampedOrder body now freshId) "createdAt" = .date now := by
  refine ⟨by simp [createOrder, h], by simp [createOrder, stampedOrder, h], ?_, ?_⟩
  · exact getField_spreadAfter_allVal _ _ _
      (by rw [hasKey_setField]; simp)
      (allVal_setField _ _ _) _
  · exact getField_spreadAfter_allVal _ _ _
      (by rw [hasKey_setField_ne _ _ _ _ (by decide), hasKey_setField]; simp)
      (allVal_setField_ne _ _ _ _ _ (by decide) (allVal_setField _ _ _)) _

/-- C7 witness: a concrete order with a client-supplied status, taken in
memory: one entry appended, status and createdAt overwritten, 200 with the
synthesized identifier. -/
theorem createOrder_inMemory_appends_witness :
    (createOrder stMem [("status", .str "Shipped")] 7 "ord1" .err).resp =
      ⟨200, .obj [("message", .str "Order received (in-memory)."),
        ("orderId", .str "ord1")]⟩ ∧
    (createOrder stMem [("status", .str "Shipped")] 7 "ord1" .err).state.inMemoryOrders =
      [] ++ [stampedOrder [("status", .str "Shipped")] 7 "ord1"] ∧
    getField (stampedOrder [("status", .str "Shipped")] 7 "ord1") "status" =
      .str "Processing" ∧
    getField (stampedOrder [("status", .str "Shipped")] 7 "ord1") "createdAt" =
      .date 7 :=
  createOrder_inMemory_appends stMem [("status", .str "Shipped")] 7 "ord1" .err rfl

/-- C8: for every authorized delete-one request in in-memory mode the
response is 200; when the path identifier strictly matches no entry's `id`
field the whole state is unchanged (idempotent no-op); when some entry
matches, the first matching entry — exactly one — is removed and the
remaining entries are preserved in order. -/
theorem deleteOne_inMemory_idempotent (st : ServerState) (pid : String)
    (o : DbOutcome Unit) (h : st.isDbAvailable = false) :
    (deleteOneProduct st pid o).resp =
      ⟨200, .obj [("message", .str "Product deleted (in-memory)")]⟩ ∧
    ((∀ p ∈ st.inMemoryProducts, isIdMatch pid p = false) →
      (deleteOneProduct st pid o).state = st) ∧
    (∀ q ∈ st.inMemoryProducts, isIdMatch pid q = true →
      ∃ p l1 l2, isIdMatch pid p = true ∧
        (∀ b ∈ l1, isIdMatch pid b = false) ∧
        st.inMemoryProducts = l1 ++ p :: l2 ∧
        (deleteOneProduct st pid o).state.inMemoryProducts = l1 ++ l2) := by
  have hstate : (deleteOneProduct st pid o).state =
      { st with inMemoryProducts := removeFirstById st.inMemoryProducts pid } := by
    simp [deleteOneProduct, h]
  have hresp : (deleteOneProduct st pid o).resp =
      ⟨200, .obj [("message", .str "Product deleted (in-memory)")]⟩ := by
    simp [deleteOneProduct, h]
  refine ⟨hresp, fun hn => ?_, fun q hq hqm => ?_⟩
  · rw [hstate, removeFirstById_eq_eraseP,
      List.eraseP_of_forall_not (fun a ha => by simp [hn a ha])]
  · obtain ⟨p, l1, l2, h1, h2, h3, h4⟩ := List.exists_of_eraseP hq hqm
    refine ⟨p, l1, l2, h2, fun b hb => by simpa using h1 b hb, h3, ?_⟩
    rw [hstate]
    simpa [removeFirstById_eq_eraseP] using h4

/-- C8 witness: on a two-product in-memory state, deleting an unmatched
identifier is a 200 no-op. -/
theorem deleteOne_inMemory_idempotent_witness :
    (deleteOneProduct ⟨false, [], [], [[("id", .str "a")], [("id", .str "b")]], []⟩
        "z" .err).resp =
      ⟨200, .obj [("message", .str "Product deleted (in-memory)")]⟩ ∧
    (deleteOneProduct ⟨false, [], [], [[("id", .str "a")], [("id", .str "b")]], []⟩
        "z" .err).state =
      ⟨false, [], [], [[("id", .str "a")], [("id", .str "b")]], []⟩ := by
  have h := deleteOne_inMemory_idempotent
    ⟨false, [], [], [[("id", .str "a")], [("id", .str "b")]], []⟩ "z" .err rfl
  exact ⟨h.1, h.2.1 (by decide)⟩

/-- The object carried by a single-record response (empty for an array
response). -/
def respRecord : RespBody → Obj
  | .obj o => o
  | .items _ => []

/-- C3 counterexample: a valid submission whose body itself carries an `id`
field.  The handler builds the record as the generated identifier followed by
a spread of the body, so the client-supplied `id` overwrites the generated
one: at this input the 201 record's identifier is "CLIENT", not the
generated "GEN", refuting "a record containing exactly the submitted fields
plus a generated identifier". -/
theorem addProduct_client_id_overrides :
    (addProduct stMem
      [("name", .str "Wheel Set"), ("price", .num 49), ("id", .str "CLIENT")]
      0 "GEN" .err).resp.status = 201 ∧
    getField (respRecord (addProduct stMem
      [("name", .str "Wheel Set"), ("price", .num 49), ("id", .str "CLIENT")]
      0 "GEN" .err).resp.body) "id" = .str "CLIENT" ∧
    JVal.str "CLIENT" ≠ JVal.str "GEN" := by
  decide

/-- C3 (amended): for every authorized product submission with a truthy
name, a numeric price, well-formed (distinct) keys, and no client-supplied
`id` field, the add endpoint responds 201 with a record consisting exactly of
the generated identifier (the store's on insert success, the synthesized one
otherwise) followed by the submitted fields with a server-stamped
`createdAt`; in in-memory mode, and likewise on an available-mode store
error, the same (synthesized-id) record is prepended to the in-memory
products collection, which is unchanged on a successful store insert.  (The
frozen claim fails only when the body itself carries an `id` field, which
then overrides the generated identifier.) -/
theorem addProduct_valid_creates_record (st : ServerState) (body : Obj)
    (now : Nat) (freshId : String) (dbAdd : DbOutcome String)
    (hname : truthy (getField body "name") = true)
    (hprice : isNumber (getField body "price") = true)
    (hnodup : (body.map Prod.fst).Nodup)
    (hid : hasKey body "id" = false) :
    (st.isDbAvailable = false →
      (addProduct st body now freshId dbAdd).resp =
        ⟨201, .obj (("id", .str freshId) :: setField body "createdAt" (.date now))⟩ ∧
      (addProduct st body now freshId dbAdd).state.inMemoryProducts =
        (("id", .str freshId) :: setField body "createdAt" (.date now)) ::
          st.inMemoryProducts) ∧
    (∀ refId, st.isDbAvailable = true → dbAdd = .ok refId →
      (addProduct st body now freshId dbAdd).resp =
        ⟨201, .obj (("id", .str refId) :: setField body "createdAt" (.date now))⟩ ∧
      (addProduct st body now freshId dbAdd).state.inMemoryProducts =
        st.inMemoryProducts) ∧
    (st.isDbAvailable = true → dbAdd = .err →
      (addProduct st body now freshId dbAdd).resp =
        ⟨201, .obj (("id", .str freshId) :: setField body "createdAt" (.date now))⟩ ∧
      (addProduct st body now freshId dbAdd).state.inMemoryProducts =
        (("id", .str freshId) :: setField body "createdAt" (.date now)) ::
          st.inMemoryProducts) := by
  have hsingle : ∀ v : JVal,
      spreadAfter [("id", v)] (setField body "createdAt" (.date now)) =
        ("id", v) :: setField body "createdAt" (.date now) := by
    intro v
    refine spreadAfter_single "id" v _ (map_fst_setField_nodup _ _ _ hnodup) ?_
    rw [hasKey_setField_ne _ _ _ _ (by decide)]
    exact hid
  refine ⟨fun h => ?_, fun refId h hok => ?_, fun h herr => ?_⟩
  · constructor <;> simp [addProduct, hname, hprice, h, hsingle]
  · subst hok
    constructor <;> simp [addProduct, hname, hprice, h, hsingle]
  · subst herr
    constructor <;> simp [addProduct, hname, hprice, h, hsingle]

/-- C3 witness: the concrete scenario from the spec, in in-memory mode, on
an available-mode successful insert, and on an available-mode store error
(fallback prepend, still 201 with the synthesized identifier). -/
theorem addProduct_valid_creates_record_witness :
    (addProduct stMem [("name", .str "Wheel Set"), ("price", .num 49)]
        5 "GEN" .err).resp =
      ⟨201, .obj (("id", .str "GEN") ::
        setField [("name", .str "Wheel Set"), ("price", .num 49)]
          "createdAt" (.date 5))⟩ ∧
    (addProduct stMem [("name", .str "Wheel Set"), ("price", .num 49)]
        5 "GEN" .err).state.inMemoryProducts =
      [("id", .str "GEN") ::
        setField [("name", .str "Wheel Set"), ("price", .num 49)]
          "createdAt" (.date 5)] ∧
    (addProduct stDb [("name", .str "Wheel Set"), ("price", .num 49)]
        5 "GEN" (.ok "REF")).resp =
      ⟨201, .obj (("id", .str "REF") ::
        setField [("name", .str "Wheel Set"), ("price", .num 49)]
          "createdAt" (.date 5))⟩ ∧
    (addProduct stDb [("name", .str "Wheel Set"), ("price", .num 49)]
        5 "GEN" .err).resp =
      ⟨201, .obj (("id", .str "GEN") ::
        setField [("name", .str "Wheel Set"), ("price", .num 49)]
          "createdAt" (.date 5))⟩ ∧
    (addProduct stDb [("name", .str "Wheel Set"), ("price", .num 49)]
        5 "GEN" .err).state.inMemoryProducts =
      [("id", .str "GEN") ::
        setField [("name", .str "Wheel Set"), ("price", .num 49)]
          "createdAt" (.date 5)] := by
  have h := addProduct_valid_creates_record stMem
    [("name", .str "Wheel Set"), ("price", .num 49)] 5 "GEN" .err
    (by decide) (by decide) (by decide) (by decide)
  have hok := addProduct_valid_creates_record stDb
    [("name", .str "Wheel Set"), ("price", .num 49)] 5 "GEN" (.ok "REF")
    (by decide) (by decide) (by decide) (by decide)
  have herr := addProduct_valid_creates_record stDb
    [("name", .str "Wheel Set"), ("price", .num 49)] 5 "GEN" .err
    (by decide) (by decide) (by decide) (by decide)
  exact ⟨(h.1 rfl).1, (h.1 rfl).2, (hok.2.1 "REF" rfl rfl).1,
    (herr.2.2 rfl rfl).1, (herr.2.2 rfl rfl).2⟩

/-- C1 counterexample: with the store available, a thrown store error in
order intake responds 500 and leaves the in-memory orders empty, while the
in-memory path at the very same input appends the order and responds 200 —
so a per-call store failure in the order-intake handler does not fall back
to the in-memory path, refuting "falls back ... inside any handler". -/
theorem createOrder_error_no_fallback_cx :
    (createOrder stDb [] 0 "g" .err).resp.status = 500 ∧
    (createOrder stDb [] 0 "g" .err).state.inMemoryOrders = [] ∧
    (createOrder stMem [] 0 "g" .err).resp.status = 200 ∧
    (createOrder stMem [] 0 "g" .err).state.inMemoryOrders =
      [[("id", .str "g"), ("createdAt", .date 0), ("status", .str "Processing")]] := by
  decide

/-- C1 (amended): the storage-mode flag is assigned only during startup —
every handler returns a state with the flag unchanged; whenever the flag is
false no handler invokes the document-store client; and a per-call store
failure never changes the flag: the product list handler falls back to the
in-memory collection and the product add handler falls back to prepending in
memory (still 201), while order intake and both delete handlers respond 500
with the state unchanged, with no fallback write. -/
theorem storage_flag_and_fallback_invariant (st : ServerState) (body : Obj)
    (now : Nat) (freshId pid : String) (oS : DbOutcome String)
    (oU oV oW : DbOutcome Unit) :
    ((createOrder st body now freshId oS).state.isDbAvailable = st.isDbAvailable) ∧
    ((getProducts st oU).state.isDbAvailable = st.isDbAvailable) ∧
    ((addProduct st body now freshId oS).state.isDbAvailable = st.isDbAvailable) ∧
    ((deleteAllProducts st oV).state.isDbAvailable = st.isDbAvailable) ∧
    ((deleteOneProduct st pid oW).state.isDbAvailable = st.isDbAvailable) ∧
    (st.isDbAvailable = false →
      (createOrder st body now freshId oS).dbCalled = false ∧
      (getProducts st oU).dbCalled = false ∧
      (addProduct st body now freshId oS).dbCalled = false ∧
      (deleteAllProducts st oV).dbCalled = false ∧
      (deleteOneProduct st pid oW).dbCalled = false) ∧
    (st.isDbAvailable = true →
      (getProducts st .err).resp = ⟨200, .items st.inMemoryProducts⟩ ∧
      (truthy (getField body "name") = true →
        isNumber (getField body "price") = true →
        (addProduct st body now freshId .err).resp.status = 201 ∧
        (addProduct st body now freshId .err).state.inMemoryProducts =
          spreadAfter [("id", .str freshId)] (setField body "createdAt" (.date now)) ::
            st.inMemoryProducts) ∧
      (createOrder st body now freshId .err).resp.status = 500 ∧
      (createOrder st body now freshId .err).state = st ∧
      (deleteAllProducts st .err).resp.status = 500 ∧
      (deleteAllProducts st .err).state = st ∧
      (deleteOneProduct st pid .err).resp.status = 500 ∧
      (deleteOneProduct st pid .err).state = st) := by
  cases hav : st.isDbAvailable with
  | false =>
    refine ⟨by simp [createOrder, hav], by simp [getProducts, hav], ?_,
      by simp [deleteAllProducts, hav], by simp [deleteOneProduct, hav],
      fun _ => ⟨by simp [createOrder, hav], by simp [getProducts, hav], ?_,
        by simp [deleteAllProducts, hav], by simp [deleteOneProduct, hav]⟩,
      fun hc => absurd hc (by simp [hav])⟩
    · simp only [addProduct]
      split
      · exact hav
      · simp [hav]
    · simp only [addProduct]
      split
      · rfl
      · simp [hav]
  | true =>
    refine ⟨by cases oS <;> simp [createOrder, hav],
      by cases oU <;> simp [getProducts, hav], ?_,
      by cases oV <;> simp [deleteAllProducts, hav],
      by cases oW <;> simp [deleteOneProduct, hav],
      fun hc => absurd hc (by simp [hav]),
      fun _ => ⟨by simp [getProducts, hav], fun h1 h2 => ?_,
        by simp [createOrder, hav], by simp [createOrder, hav],
        by simp [deleteAllProducts, hav], by simp [deleteAllProducts, hav],
        by simp [deleteOneProduct, hav], by simp [deleteOneProduct, hav]⟩⟩
    · simp only [addProduct]
      split
      · exact hav
      · cases oS <;> simp [hav]
    · constructor <;> simp [addProduct, h1, h2, hav]

/-- C1 witness: concrete instances of the amended invariant on both startup
modes. -/
theorem storage_flag_and_fallback_invariant_witness :
    (createOrder stMem [] 0 "g" (.ok "r")).state.isDbAvailable =
      stMem.isDbAvailable ∧
    (createOrder stMem [] 0 "g" (.ok "r")).dbCalled = false ∧
    (getProducts stDb .err).resp = ⟨200, .items stDb.inMemoryProducts⟩ ∧
    (addProduct stDb [("name", .str "a"), ("price", .num 1)] 0 "g"
      .err).resp.status = 201 ∧
    (createOrder stDb [] 0 "g" .err).resp.status = 500 := by
  have hm := storage_flag_and_fallback_invariant stMem [] 0 "g" "p"
    (.ok "r") .err .err .err
  have hd := storage_flag_and_fallback_invariant stDb
    [("name", .str "a"), ("price", .num 1)] 0 "g" "p" .err .err .err .err
  exact ⟨hm.1, (hm.2.2.2.2.2.1 rfl).1, (hd.2.2.2.2.2.2 rfl).1,
    ((hd.2.2.2.2.2.2 rfl).2.1 (by decide) (by decide)).1,
    (hd.2.2.2.2.2.2 rfl).2.2.1⟩

/-- C10: in in-memory mode the products collection stays in reverse
insertion order: every successful add prepends the new record to the front;
delete-one removes at most its first match, leaving a sublist (relative order
of the remaining entries preserved), and delete-all leaves the empty list (a
sublist trivially); the list endpoint returns the collection itself, so
after an add the most recently added product is listed first. -/
theorem inMemory_reverse_insertion_order (st : ServerState) (body : Obj)
    (now : Nat) (freshId pid : String) (o1 : DbOutcome String)
    (o2 o3 o4 o5 : DbOutcome Unit)
    (h : st.isDbAvailable = false)
    (hname : truthy (getField body "name") = true)
    (hprice : isNumber (getField body "price") = true) :
    (addProduct st body now freshId o1).state.inMemoryProducts =
      spreadAfter [("id", .str freshId)] (setField body "createdAt" (.date now)) ::
        st.inMemoryProducts ∧
    (getProducts (addProduct st body now freshId o1).state o2).resp =
      ⟨200, .items (spreadAfter [("id", .str freshId)]
        (setField body "createdAt" (.date now)) :: st.inMemoryProducts)⟩ ∧
    List.Sublist (deleteOneProduct st pid o3).state.inMemoryProducts
      st.inMemoryProducts ∧
    (deleteAllProducts st o4).state.inMemoryProducts = [] ∧
    (getProducts st o5).resp = ⟨200, .items st.inMemoryProducts⟩ := by
  refine ⟨by simp [addProduct, hname, hprice, h], ?_, ?_,
    by simp [deleteAllProducts, h], by simp [getProducts, h]⟩
  · simp [getProducts, addProduct, hname, hprice, h]
  · have hstate : (deleteOneProduct st pid o3).state.inMemoryProducts =
        removeFirstById st.inMemoryProducts pid := by
      simp [deleteOneProduct, h]
    rw [hstate, removeFirstById_eq_eraseP]
    exact List.eraseP_sublist _

/-- C10 witness: one add, one unmatched delete, one delete-all and two
listings on a one-product in-memory state. -/
theorem inMemory_reverse_insertion_order_witness :
    (addProduct ⟨false, [], [], [[("id", .str "old")]], []⟩
        [("name", .str "n"), ("price", .num 2)] 3 "new" .err).state.inMemoryProducts =
      spreadAfter [("id", .str "new")]
        (setField [("name", .str "n"), ("price", .num 2)] "createdAt" (.date 3)) ::
        [[("id", .str "old")]] ∧
    (getProducts (addProduct ⟨false, [], [], [[("id", .str "old")]], []⟩
        [("name", .str "n"), ("price", .num 2)] 3 "new" .err).state .err).resp =
      ⟨200, .items (spreadAfter [("id", .str "new")]
        (setField [("name", .str "n"), ("price", .num 2)] "createdAt" (.date 3)) ::
        [[("id", .str "old")]])⟩ ∧
    List.Sublist (deleteOneProduct ⟨false, [], [], [[("id", .str "old")]], []⟩
        "z" .err).state.inMemoryProducts [[("id", .str "old")]] ∧
    (deleteAllProducts ⟨false, [], [], [[("id", .str "old")]], []⟩
        .err).state.inMemoryProducts = [] ∧
    (getProducts ⟨false, [], [], [[("id", .str "old")]], []⟩ .err).resp =
      ⟨200, .items [[("id", .str "old")]]⟩ :=
  inMemory_reverse_insertion_order ⟨false, [], [], [[("id", .str "old")]], []⟩
    [("name", .str "n"), ("price", .num 2)] 3 "new" "z" .err .err .err .err .err
    rfl (by decide) (by decide)

end SkidRC
